import Mathlib

/-!
Verification of the RISC-V 2-issue out-of-order Tomasulo pipeline simulator.

This file gives a shallow embedding of the simulator source (a single
JavaScript file) and proves or refutes the frozen claims about it.

Conventions of the embedding:
* JavaScript numbers are modelled as `Int` (every value the program
  manipulates is an exact integer far below 2^53, where JS doubles are
  exact); the points where the source coerces to 32-bit integers
  (`Int32Array` element writes, bitwise operators) are modelled explicitly
  with `toInt32` / `toUInt32`.
* `Date.now()` is an external input: the cache access function takes the
  current wall-clock value `now` as an explicit argument, and the simulator
  state carries an oracle `wallClock : Nat → Int` giving the value returned
  by the k-th call, together with the call counter `timeIdx`.
* Mutable JS objects are modelled by explicit state passing.  The
  `Instruction` object owned by a reservation station is flattened into the
  `RSEntry` structure (it is referenced by no other structure; the ROB and
  LSQ entries are separate objects in the source).  The `Instruction`
  fields `isFlush`, `isStore` and `isMemReady` are never read on that
  object in the source and are omitted; the unused `cdb` field of the
  simulator is omitted as well.
* The DOM rendering (`updateUI`, the element lookups inside `log`) only
  reads the state and is not modelled; `log` keeps its state effect, the
  append to `logs`.
* The assembly-text parser (out of scope per the specification, which the
  core only meets through the decoded-instruction map it produces) is
  abstracted: `loadProgram` takes the list of decoded instruction templates
  the parser would produce for the text, loaded at byte addresses
  0, 4, 8, ….  Register indices in a well-formed program store are 0..31
  (the specification's error-handling section states the core assumes a
  well-formed program store), modelled as `Fin 32`.
-/

/-- JS `ToInt32`: reduce an exact integer to 32-bit two's complement. -/
def toInt32 (n : Int) : Int :=
  (n + 2147483648) % 4294967296 - 2147483648

/-- JS `ToUint32`: the unsigned 32-bit pattern of an exact integer. -/
def toUInt32 (n : Int) : Nat :=
  (n % 4294967296).toNat

/-- Update the first element of a list satisfying `p` (JS `Array.find`
followed by mutation of the found object). -/
def updateFirst (p : α → Bool) (f : α → α) : List α → List α
  | [] => []
  | x :: xs => if p x then f x :: xs else x :: updateFirst p f xs

/-- Update the last element of a list (mutation of `arr[arr.length-1]`). -/
def updateLast (f : α → α) : List α → List α
  | [] => []
  | [x] => [f x]
  | x :: y :: xs => x :: updateLast f (y :: xs)

/-- Update the element at index `i` (mutation of the array element found by
index; out-of-range indices leave the list unchanged). -/
def modifyIdx (f : α → α) : Nat → List α → List α
  | _, [] => []
  | 0, x :: xs => f x :: xs
  | n + 1, x :: xs => x :: modifyIdx f n xs

/-- The opcode strings of the `OPCODES` table.  The parser uppercases the
mnemonic, so any recognised program text yields one of these; an
unrecognised mnemonic produces a template with all register fields and the
immediate defaulted to 0, which behaves identically to `NOP` in every
stage, so it is folded into `NOP`. -/
inductive Op
  | ADD | SUB | AND | OR | XOR | SLT | ADDI | LW | SW
  | BEQ | BNE | JAL | JALR | NOP
deriving DecidableEq

/-- One cache line: `{ tag: -1, lru: 0, dirty: false }` initially. -/
structure CacheLine where
  tag : Int
  lru : Int
  dirty : Bool
deriving DecidableEq

/-- The `Cache` component: 32 sets of 2 ways plus metric counters. -/
structure Cache where
  latency : Int
  missPenalty : Int
  sets : List (List CacheLine)
  accessCount : Nat
  hitCount : Nat
  missCount : Nat
deriving DecidableEq

def initCacheLine : CacheLine := { tag := -1, lru := 0, dirty := false }

def initCache (latency missPenalty : Int) : Cache :=
  { latency := latency, missPenalty := missPenalty
    sets := List.replicate 32 (List.replicate 2 initCacheLine)
    accessCount := 0, hitCount := 0, missCount := 0 }

/-- Scan of the ways for a tag match (the hit loop). -/
def hitScan (tag : Int) : List CacheLine → Nat → Option Nat
  | [], _ => none
  | l :: rest, i => if l.tag = tag then some i else hitScan tag rest (i + 1)

/-- The LRU victim scan: running minimum starting from way 0, strict
comparison, so ties keep the earlier way. -/
def victimScan : List CacheLine → Nat → Nat → Int → Nat
  | [], _, v, _ => v
  | l :: rest, i, v, m =>
    if l.lru < m then victimScan rest (i + 1) i l.lru
    else victimScan rest (i + 1) v m

def victimIndex : List CacheLine → Nat
  | [] => 0
  | l :: rest => victimScan rest 1 0 l.lru

/-- `Cache.access(addr, isWrite)`.  `now` is the value `Date.now()`
returns during this call (the source stamps LRU ranks with the wall
clock).  The address is coerced with `ToInt32` by the shift operators:
index = `(addr >> 6) & 0x1F`, tag = `addr >> 11`. -/
def Cache.access (c : Cache) (now : Int) (addr : Int) (isWrite : Bool) :
    Cache × Bool × Int :=
  let c0 := { c with accessCount := c.accessCount + 1 }
  let a32 := toInt32 addr
  let index := ((Int.fdiv a32 64) % 32).toNat
  let tag := Int.fdiv a32 2048
  let set := c0.sets.getD index []
  match hitScan tag set 0 with
  | some wayIdx =>
      let set2 := modifyIdx
        (fun l => { l with lru := now, dirty := if isWrite then true else l.dirty })
        wayIdx set
      ({ c0 with hitCount := c0.hitCount + 1
                 sets := c0.sets.set index set2 }, true, c0.latency)
  | none =>
      let victimIdx := victimIndex set
      let set2 := (set.set victimIdx { tag := tag, lru := now, dirty := isWrite })
      ({ c0 with missCount := c0.missCount + 1
                 sets := c0.sets.set index set2 }, false,
        c0.latency + c0.missPenalty)

/-- gshare state: 10-bit GHR (kept masked, hence a `Nat` below 1024 in any
state the source produces) and the 1024-entry table of 2-bit counters
(a `Uint8Array` initialised to 1). -/
structure GsharePredictor where
  ghr : Nat
  pht : Nat → Nat

def initPredictor : GsharePredictor := { ghr := 0, pht := fun _ => 1 }

/-- `(pc ^ ghr) & 0x3FF`: the XOR acts on 32-bit patterns, the mask keeps
the low 10 bits. -/
def phtIndex (pc : Int) (ghr : Nat) : Nat :=
  Nat.land (Nat.xor (toUInt32 pc) (toUInt32 ghr)) 1023

def GsharePredictor.predict (p : GsharePredictor) (pc : Int) : Bool :=
  decide (2 ≤ p.pht (phtIndex pc p.ghr))

def GsharePredictor.update (p : GsharePredictor) (pc : Int) (taken : Bool) :
    GsharePredictor :=
  let index := phtIndex pc p.ghr
  let counter := p.pht index
  let counter2 :=
    if taken then (if counter < 3 then counter + 1 else counter)
    else (if 0 < counter then counter - 1 else counter)
  { ghr := Nat.land (2 * p.ghr + (if taken then 1 else 0)) 1023
    pht := fun i => if i = index then counter2 else p.pht i }

/-- Decoded-instruction template as produced by the parser: the fields of
`this.instructions[addr]`. -/
structure InstrTemplate where
  text : String
  op : Op
  rd : Fin 32
  rs1 : Fin 32
  rs2 : Fin 32
  imm : Int
deriving DecidableEq

/-- A reservation station slot.  `busy := false` slots carry defaulted
fields (the source leaves them `undefined`; every read is guarded by
`busy`).  The fields from `pc` on model the `Instruction` object the
station owns (`rs.inst`). -/
structure RSEntry where
  busy : Bool := false
  op : Op := Op.NOP
  vj : Int := 0
  vk : Int := 0
  qj : Int := -1
  qk : Int := -1
  robTag : Int := 0
  pc : Int := 0
  text : String := ""
  rd : Fin 32 := 0
  rs1 : Fin 32 := 0
  rs2 : Fin 32 := 0
  imm : Int := 0
  predictedTaken : Bool := false
  executionCyclesLeft : Int := 0
  totalCycles : Int := 0
  instIsReady : Bool := false
  result : Int := 0
  memAddr : Int := 0
deriving DecidableEq

/-- A ROB entry, exactly the object literal pushed at issue.  Note the
source never stores a memory address on ROB entries. -/
structure ROBEntry where
  robTag : Int
  op : Op
  rd : Fin 32
  pc : Int
  instText : String
  isReady : Bool
  result : Int
  predictedTaken : Bool
  targetAddr : Int
deriving DecidableEq

/-- An LSQ entry as pushed at issue. -/
structure LSQEntry where
  robTag : Int
  isStore : Bool
  memAddr : Int
  value : Int
  isMemReady : Bool
deriving DecidableEq

def emptyRS : RSEntry := {}

def initRSList (n : Nat) : List RSEntry := List.replicate n emptyRS

/-- The whole simulator state. -/
structure SimState where
  memory : Nat → Int
  regFile : Fin 32 → Int
  pc : Int
  clock : Int
  robSize : Nat
  width : Nat
  rat : Fin 32 → Int
  rob : List ROBEntry
  rsALU : List RSEntry
  rsLS : List RSEntry
  lsq : List LSQEntry
  robOccupationHistory : List Nat
  rsOccupationHistory : List Nat
  branchCorrect : Nat
  branchTotal : Nat
  l1i : Cache
  l1d : Cache
  predictor : GsharePredictor
  instructions : List InstrTemplate
  instructionsCommitted : Nat
  isRunning : Bool
  logs : List String
  nextRobTag : Int
  wallClock : Nat → Int
  timeIdx : Nat

/-- The `Simulator` constructor. -/
def initSim (wallClock : Nat → Int) : SimState :=
  { memory := fun _ => 0
    regFile := fun _ => 0
    pc := 0, clock := 0
    robSize := 32, width := 2
    rat := fun _ => -1
    rob := [], rsALU := initRSList 8, rsLS := initRSList 4, lsq := []
    robOccupationHistory := [], rsOccupationHistory := []
    branchCorrect := 0, branchTotal := 0
    l1i := initCache 1 10, l1d := initCache 2 10
    predictor := initPredictor
    instructions := [], instructionsCommitted := 0
    isRunning := false, logs := []
    nextRobTag := 1
    wallClock := wallClock, timeIdx := 0 }

def cicloOpen : String := "[Ciclo "
def cicloClose : String := "] "

/-- `log(msg)`: append the cycle-tagged message (the DOM update only reads
state). -/
def SimState.log (s : SimState) (msg : String) : SimState :=
  { s with logs := s.logs ++ [cicloOpen ++ toString s.clock ++ cicloClose ++ msg] }

def msgLoaded : String := "Programa carregado."
def msgFinished : String := "Execução finalizada."

def l1iMissMsg (pc : Int) : String := "L1I MISS em " ++ toString pc
def flushMsg (pc : Int) : String :=
  "FLUSH! Branch em " ++ toString pc ++ " mal previsto."
def storeMsg (v : Int) : String :=
  "COMMIT STORE: MEM[undefined] = " ++ toString v
def execMsg (t : String) (v : Int) : String :=
  "EXEC: " ++ t ++ " -> Result: " ++ toString v
def branchTakenMsg (pcOld pcNew : Int) : String :=
  "Branch " ++ toString pcOld ++ " previsto TOMADO -> " ++ toString pcNew
def issueMsg (t : String) (tag : Int) : String :=
  "ISSUE: " ++ t ++ " (ROB#" ++ toString tag ++ ")"

/-- `loadProgram(text)`: reset the architectural and pipeline state and
install the parsed program.  The parser itself is abstracted to the list of
decoded templates it produces (see the header comment); it resets neither
the LSQ, nor `nextRobTag`, nor the predictor, caches, branch counters or
occupation histories. -/
def loadProgram (prog : List InstrTemplate) (s : SimState) : SimState :=
  let s1 := { s with
    pc := 0
    memory := fun _ => 0
    regFile := fun _ => 0
    rat := fun _ => -1
    rob := []
    rsALU := initRSList 8, rsLS := initRSList 4
    clock := 0
    instructionsCommitted := 0
    logs := []
    instructions := prog }
  s1.log msgLoaded

/-- Program-store lookup `this.instructions[this.pc]`: the keys are
exactly the byte addresses 0, 4, …, 4·(n−1). -/
def progLookup (prog : List InstrTemplate) (pc : Int) : Option InstrTemplate :=
  if 0 ≤ pc ∧ pc % 4 = 0 then prog.get? (pc.toNat / 4) else none

/-- One call of `Date.now()` against the oracle. -/
def takeNow (s : SimState) : Int × SimState :=
  (s.wallClock s.timeIdx, { s with timeIdx := s.timeIdx + 1 })

def simAccessL1I (addr : Int) (isWrite : Bool) (s : SimState) :
    SimState × Bool :=
  let now := (takeNow s).1
  let s1 := (takeNow s).2
  let r := s1.l1i.access now addr isWrite
  ({ s1 with l1i := r.1 }, r.2.1)

def simAccessL1D (addr : Int) (isWrite : Bool) (s : SimState) :
    SimState × Bool :=
  let now := (takeNow s).1
  let s1 := (takeNow s).2
  let r := s1.l1d.access now addr isWrite
  ({ s1 with l1d := r.1 }, r.2.1)

/-- `this.memory[Math.floor(addr / 4)] | 0`: a word read from the
`Int32Array`; out-of-range or negative indices read `undefined`, which
`| 0` turns into 0. -/
def memRead (mem : Nat → Int) (byteAddr : Int) : Int :=
  let w := Int.fdiv byteAddr 4
  if 0 ≤ w ∧ w < 65536 then mem w.toNat else 0

/-- `flushPipeline(correctPC, taken)`: clears ROB, both RS pools and the
RAT and redirects the PC (both arms of the source's `if (taken)` assign
`correctPC`).  The LSQ and the ARF are not touched. -/
def flushPipeline (correctPC : Int) (taken : Bool) (s : SimState) : SimState :=
  let s1 := { s with
    rob := []
    rsALU := initRSList 8, rsLS := initRSList 4
    rat := fun _ => -1 }
  if taken then { s1 with pc := correctPC } else { s1 with pc := correctPC }

/-- `this.rob.shift(); this.instructionsCommitted++`. -/
def popROB (s : SimState) : SimState :=
  { s with rob := s.rob.tail, instructionsCommitted := s.instructionsCommitted + 1 }

/-- Condition for the ARF write at commit:
`head.rd !== 0 && head.op !== 'SW' && head.op !== 'BEQ' && head.op !== 'BNE'`. -/
def wbCond (head : ROBEntry) : Prop :=
  head.rd ≠ (0 : Fin 32) ∧ head.op ≠ Op.SW ∧ head.op ≠ Op.BEQ ∧ head.op ≠ Op.BNE

instance (head : ROBEntry) : Decidable (wbCond head) := by
  unfold wbCond; infer_instance

/-- The part of `stageCommit` after the branch-misprediction block:
ARF/RAT writeback, LSQ gating of loads and stores, ROB pop.  `head` is
`this.rob[0]`.  In the store arm, `head.memAddr` does not exist on ROB
entries in the source (it is `undefined`): the L1D access coerces it to 0
(`ToInt32(undefined) = 0` inside the shift operators) and the main-memory
write targets `this.memory[undefined / 4]`, i.e. index NaN, which an
`Int32Array` silently ignores — so commit never writes main memory. -/
def commitTail (head : ROBEntry) (s : SimState) : SimState :=
  let s1 := { s with
    regFile :=
      if wbCond head then
        Function.update s.regFile head.rd (toInt32 head.result)
      else s.regFile
    rat :=
      if wbCond head ∧ s.rat head.rd = head.robTag then
        Function.update s.rat head.rd (-1)
      else s.rat }
  if head.op = Op.SW ∨ head.op = Op.LW then
    match s1.lsq with
    | [] => s1
    | lsqHead :: lsqRest =>
      if lsqHead.robTag = head.robTag ∧ lsqHead.isMemReady = true then
        let s2 :=
          if head.op = Op.SW then
            let sB := (simAccessL1D 0 true s1).1
            sB.log (storeMsg head.result)
          else s1
        popROB { s2 with lsq := lsqRest }
      else s1
  else popROB s1

/-- `stageCommit()`. -/
def stageCommit (s : SimState) : SimState :=
  match s.rob with
  | [] => s
  | head :: _ =>
    if head.isReady = true then
      if head.op = Op.BEQ ∨ head.op = Op.BNE then
        let actualTaken : Bool := decide (head.result = 1)
        let s1 := { s with branchTotal := s.branchTotal + 1 }
        let s2 :=
          if actualTaken = head.predictedTaken then
            { s1 with branchCorrect := s1.branchCorrect + 1 }
          else s1
        let s3 := { s2 with predictor := s2.predictor.update head.pc actualTaken }
        if actualTaken ≠ head.predictedTaken then
          flushPipeline head.targetAddr actualTaken (s3.log (flushMsg head.pc))
        else
          commitTail head s3
      else
        commitTail head s
    else s

/-- Operand capture for `qj` (the simulated CDB listen). -/
def capture1 (s : SimState) (rs : RSEntry) : RSEntry :=
  if rs.qj ≠ -1 then
    match s.rob.find? (fun r => decide (r.robTag = rs.qj)) with
    | some producer =>
        if producer.isReady then { rs with vj := producer.result, qj := -1 } else rs
    | none => rs
  else rs

/-- Operand capture for `qk`. -/
def capture2 (s : SimState) (rs : RSEntry) : RSEntry :=
  if rs.qk ≠ -1 then
    match s.rob.find? (fun r => decide (r.robTag = rs.qk)) with
    | some producer =>
        if producer.isReady then { rs with vk := producer.result, qk := -1 } else rs
    | none => rs
  else rs

/-- The result `switch` of `stageExecute` at completion, returning the
computed value together with its state effects (L1D access and LSQ update
for `LW`, LSQ update for `SW`).  `AND`, `OR`, `XOR`, `SLT`, `JAL`, `JALR`
and `NOP` have no case in the source switch, so `val` keeps its
initialisation 0. -/
def execComplete (rs : RSEntry) (s : SimState) : Int × SimState :=
  match rs.op with
  | Op.ADD => (rs.vj + rs.vk, s)
  | Op.SUB => (rs.vj - rs.vk, s)
  | Op.ADDI => (rs.vj + rs.imm, s)
  | Op.LW =>
      let s1 := (simAccessL1D rs.memAddr false s).1
      let val := memRead s1.memory rs.memAddr
      let lsq2 := updateFirst (fun l => decide (l.robTag = rs.robTag))
        (fun l => { l with memAddr := rs.memAddr, isMemReady := true }) s1.lsq
      (val, { s1 with lsq := lsq2 })
  | Op.SW =>
      let val := rs.vk
      let lsq2 := updateFirst (fun l => decide (l.robTag = rs.robTag))
        (fun l => { l with memAddr := rs.memAddr, value := val, isMemReady := true })
        s.lsq
      (val, { s with lsq := lsq2 })
  | Op.BEQ => ((if rs.vj = rs.vk then 1 else 0), s)
  | Op.BNE => ((if rs.vj ≠ rs.vk then 1 else 0), s)
  | _ => (0, s)

/-- The CDB broadcast: write result and ready flag onto the (first) ROB
entry with the matching tag; for branches also record the target address,
`pc + imm` when taken and `pc + 4` otherwise. -/
def broadcastROB (tag : Int) (op : Op) (pcv imm val : Int)
    (rob : List ROBEntry) : List ROBEntry :=
  updateFirst (fun r => decide (r.robTag = tag))
    (fun r =>
      let r1 := { r with result := val, isReady := true }
      if op = Op.BEQ ∨ op = Op.BNE then
        { r1 with targetAddr := if val = 1 then pcv + imm else pcv + 4 }
      else r1)
    rob

/-- Completion of one reservation station: compute the result, mark the
instruction ready, broadcast onto the ROB, free the station, log. -/
def execFinish (rsC : RSEntry) (s : SimState) : RSEntry × SimState :=
  let val := (execComplete rsC s).1
  let s1 := (execComplete rsC s).2
  let rsD := { rsC with result := val, instIsReady := true, busy := false }
  let s2 := { s1 with rob := broadcastROB rsC.robTag rsC.op rsC.pc rsC.imm val s1.rob }
  (rsD, s2.log (execMsg rsC.text val))

/-- The body of the `forEach` of `stageExecute` for one reservation
station. -/
def execOneRS (rs0 : RSEntry) (s : SimState) : RSEntry × SimState :=
  if rs0.busy = false then (rs0, s) else
  let rsA := capture1 s rs0
  let rs := capture2 s rsA
  if rs.qj = -1 ∧ rs.qk = -1 ∧ rs.instIsReady = false ∧ 0 < rs.executionCyclesLeft then
    let rsB :=
      if rs.executionCyclesLeft = rs.totalCycles ∧ (rs.op = Op.LW ∨ rs.op = Op.SW) then
        { rs with memAddr := rs.vj + rs.imm }
      else rs
    let rsC := { rsB with executionCyclesLeft := rsB.executionCyclesLeft - 1 }
    if rsC.executionCyclesLeft = 0 then execFinish rsC s
    else (rsC, s)
  else (rs, s)

/-- Left-to-right pass over a reservation-station pool, threading the
state (the source iterates `rsALU.concat(rsLS)`; earlier broadcasts are
visible to later wake-ups). -/
def execList : List RSEntry → SimState → List RSEntry × SimState
  | [], s => ([], s)
  | rs :: rest, s =>
      let r1 := execOneRS rs s
      let r2 := execList rest r1.2
      (r1.1 :: r2.1, r2.2)

/-- `stageExecute()`. -/
def stageExecute (s : SimState) : SimState :=
  let r1 := execList s.rsALU s
  let r2 := execList s.rsLS r1.2
  { r2.2 with rsALU := r1.1, rsLS := r2.1 }

/-- `EXEC_LATENCIES` selection at issue. -/
def latencyFor (op : Op) (isLS : Bool) : Int :=
  if isLS then (if op = Op.LW then 2 else 1)
  else if op = Op.BEQ ∨ op = Op.BNE ∨ op = Op.JAL ∨ op = Op.JALR then 1
  else 1

/-- Renaming of one source register at issue: value from the ARF when the
RAT entry is architectural (−1); otherwise the producer's result if it is
already ready in the ROB, else the producer tag. -/
def renameSrc (s : SimState) (src : Fin 32) : Int × Int :=
  if s.rat src ≠ -1 then
    match s.rob.find? (fun r => decide (r.robTag = s.rat src)) with
    | some producer =>
        if producer.isReady then (producer.result, -1) else (0, s.rat src)
    | none => (0, s.rat src)
  else (s.regFile src, -1)

/-- The successful arm of `stageFetchAndIssue` after the capacity checks:
`t` is the decoded template at the current PC, `isLS` its pool class,
`rsIdx` the index of the free station found in that pool. -/
def issueCore (t : InstrTemplate) (isLS : Bool) (rsIdx : Nat) (s : SimState) :
    SimState :=
  let pc0 := s.pc
  let sA := (simAccessL1I pc0 false s).1
  let hit := (simAccessL1I pc0 false s).2
  let sB := if hit = false then sA.log (l1iMissMsg pc0) else sA
  let robTag := sB.nextRobTag
  let sC := { sB with nextRobTag := sB.nextRobTag + 1 }
  let vj := (renameSrc sC t.rs1).1
  let qj := (renameSrc sC t.rs1).2
  let vk := (renameSrc sC t.rs2).1
  let qk := (renameSrc sC t.rs2).2
  let total := latencyFor t.op isLS
  let newLSQ : LSQEntry :=
    { robTag := robTag, isStore := decide (t.op = Op.SW)
      memAddr := -1, value := 0, isMemReady := false }
  let sD := { sC with lsq := if isLS then sC.lsq ++ [newLSQ] else sC.lsq }
  let newRS : RSEntry :=
    { busy := true, op := t.op, vj := vj, vk := vk, qj := qj, qk := qk
      robTag := robTag, pc := pc0, text := t.text
      rd := t.rd, rs1 := t.rs1, rs2 := t.rs2, imm := t.imm
      predictedTaken := false
      executionCyclesLeft := total, totalCycles := total
      instIsReady := false, result := 0, memAddr := 0 }
  let sE := { sD with
    rsALU := if isLS then sD.rsALU else sD.rsALU.set rsIdx newRS
    rsLS := if isLS then sD.rsLS.set rsIdx newRS else sD.rsLS }
  let newROB : ROBEntry :=
    { robTag := robTag, op := t.op, rd := t.rd, pc := pc0, instText := t.text
      isReady := false, result := 0, predictedTaken := false, targetAddr := 0 }
  let sF := { sE with rob := sE.rob ++ [newROB] }
  let rat2 :=
    if t.rd ≠ (0 : Fin 32) ∧ t.op ≠ Op.BEQ ∧ t.op ≠ Op.BNE ∧ t.op ≠ Op.SW then
      Function.update sF.rat t.rd robTag
    else sF.rat
  let sG := { sF with rat := rat2 }
  let sH :=
    if t.op = Op.BEQ ∨ t.op = Op.BNE then
      let pred := sG.predictor.predict sG.pc
      let sG1 := { sG with
        rob := updateLast (fun r => { r with predictedTaken := pred }) sG.rob
        rsALU := modifyIdx (fun r => { r with predictedTaken := pred }) rsIdx sG.rsALU }
      if pred = true then
        let sG2 := { sG1 with pc := sG1.pc + t.imm }
        sG2.log (branchTakenMsg pc0 sG2.pc)
      else { sG1 with pc := sG1.pc + 4 }
    else if t.op = Op.JAL then { sG with pc := sG.pc + t.imm }
    else { sG with pc := sG.pc + 4 }
  sH.log (issueMsg t.text robTag)

/-- `stageFetchAndIssue()`: the three capacity checks, then the issue.
Every failing check returns before any mutation. -/
def stageFetchAndIssue (s : SimState) : SimState × Bool :=
  if s.robSize ≤ s.rob.length then (s, false)
  else
    match progLookup s.instructions s.pc with
    | none => (s, false)
    | some t =>
      let isLS : Bool := decide (t.op = Op.LW ∨ t.op = Op.SW)
      match (if isLS then s.rsLS else s.rsALU).findIdx? (fun r => !r.busy) with
      | none => (s, false)
      | some rsIdx => (issueCore t isLS rsIdx s, true)

/-- The `while (issued < this.width)` loop of `step()`. -/
def issueLoop : Nat → SimState → SimState
  | 0, s => s
  | n + 1, s =>
      let r := stageFetchAndIssue s
      if r.2 then issueLoop n r.1 else r.1

def countBusy (l : List RSEntry) : Nat := (l.filter (fun r => r.busy)).length

/-- `step()`: one simulated cycle — Commit, Execute & Broadcast, up to
`width` issues, then the occupancy metrics.  The early return fires when
the PC has run off the program and the ROB is empty. -/
def step (s : SimState) : SimState :=
  if (s.instructions.length : Int) * 4 ≤ s.pc ∧ s.rob.length = 0 then
    SimState.log { s with isRunning := false } msgFinished
  else
    let s1 := { s with clock := s.clock + 1 }
    let s2 := stageCommit s1
    let s3 := stageExecute s2
    let s4 := issueLoop s3.width s3
    { s4 with
      robOccupationHistory := s4.robOccupationHistory ++ [s4.rob.length]
      rsOccupationHistory :=
        s4.rsOccupationHistory ++ [countBusy s4.rsALU + countBusy s4.rsLS] }

/-- `n` cycles of the simulator. -/
def stepN : Nat → SimState → SimState
  | 0, s => s
  | n + 1, s => stepN n (step s)

/-- A run from reset: a fresh `Simulator` followed by `loadProgram`. -/
def resetSim (prog : List InstrTemplate) (wallClock : Nat → Int) : SimState :=
  loadProgram prog (initSim wallClock)

/-- Instructions issued since reset: every successful issue allocates
exactly one tag (`const robTag = this.nextRobTag++`) and nothing else
touches the counter, which the constructor starts at 1. -/
def issuedSinceReset (s : SimState) : Int := s.nextRobTag - 1

/-- Whether `stageCommit` would flush in this state (evaluated on the
state a cycle starts with — commit is the first stage of `step`). -/
def mispredictAt (s : SimState) : Bool :=
  match s.rob with
  | [] => false
  | head :: _ =>
      head.isReady && decide (head.op = Op.BEQ ∨ head.op = Op.BNE)
        && (decide (head.result = 1) != head.predictedTaken)

/-- The ROB tag of the LSQ head, if any. -/
def lsqHeadTag (s : SimState) : Option Int := (s.lsq.map LSQEntry.robTag).head?

/-- Whether the ROB head is a load or store. -/
def robHeadIsMem (s : SimState) : Bool :=
  match s.rob with
  | [] => false
  | head :: _ => decide (head.op = Op.LW ∨ head.op = Op.SW)

/-- A constant wall-clock oracle (any fixed oracle makes runs concrete). -/
def wc0 : Nat → Int := fun _ => 0

def tBEQ : InstrTemplate :=
  { text := "BEQ x0 x0 8", op := Op.BEQ, rd := 0, rs1 := 0, rs2 := 0, imm := 8 }
def tADDI1 : InstrTemplate :=
  { text := "ADDI x1 x0 1", op := Op.ADDI, rd := 1, rs1 := 0, rs2 := 0, imm := 1 }
def tSW : InstrTemplate :=
  { text := "SW x1 0(x0)", op := Op.SW, rd := 0, rs1 := 0, rs2 := 1, imm := 0 }

/-- `BEQ x0,x0,8 ; ADDI x1,x0,1`: the branch is taken but predicted
not-taken (fresh counters are weakly-not-taken), so cycle 3 flushes. -/
def progC7 : List InstrTemplate := [tBEQ, tADDI1]

/-- `BEQ x0,x0,8 ; SW x1,0(x0)`: the store is speculatively issued past
the branch, so its LSQ entry is in flight when the cycle-3 flush hits. -/
def progC9 : List InstrTemplate := [tBEQ, tSW]

def tLW : InstrTemplate :=
  { text := "LW x1 0(x0)", op := Op.LW, rd := 1, rs1 := 0, rs2 := 0, imm := 0 }

/-- `BEQ x0,x0,8 ; SW x1,0(x0) ; LW x1,0(x0)`: the SW is speculatively
issued and left stale in the LSQ by the flush; the LW at the branch target
is issued after the flush and parks, ready, at the ROB head forever. -/
def progC9b : List InstrTemplate := [tBEQ, tSW, tLW]

example : (stepN 1 (resetSim progC7 wc0)).rob.length = 2 := by decide
example : mispredictAt (stepN 2 (resetSim progC7 wc0)) = true := by decide
example : (stepN 3 (resetSim progC7 wc0)).instructionsCommitted = 0 ∧
    (stepN 3 (resetSim progC7 wc0)).rob.length = 0 ∧
    (stepN 3 (resetSim progC7 wc0)).nextRobTag = 3 := by decide
example : mispredictAt (stepN 2 (resetSim progC9 wc0)) = true := by decide
example : lsqHeadTag (stepN 3 (resetSim progC9 wc0)) = some 2 := by decide
example : (stepN 3 (resetSim progC9 wc0)).pc = 8 := by decide

/-- Replay a read-access trace against a cache: each element is the pair
(wall-clock value returned by `Date.now()` during that access, address). -/
def replayAccesses (c : Cache) : List (Int × Int) → Cache
  | [] => c
  | (now, addr) :: rest =>
      replayAccesses (c.access now addr false).1 rest

/-- One address trace (set 0; tags 0, 1, 0, 2, 1). -/
def traceAddrs : List Int := [0, 2048, 0, 4096, 2048]

/-- The trace under a wall clock that does not advance between accesses
(all five calls in the same millisecond). -/
def traceSameMs : List (Int × Int) := traceAddrs.map (fun a => (100, a))

/-- The same trace under a wall clock that advances by 1 ms per access. -/
def traceTicking : List (Int × Int) :=
  [(100, 0), (101, 2048), (102, 0), (103, 4096), (104, 2048)]

example : (replayAccesses (initCache 2 10) traceSameMs).hitCount = 2 := by decide
example : (replayAccesses (initCache 2 10) traceTicking).hitCount = 1 := by decide

/-- The ALU semantics the specification prescribes (§4.4 / claim C2):
standard 32-bit two's-complement results, SLT a signed comparison.  This
is the spec-side definition, for comparison against the behaviour of the
embedded `execComplete`. -/
def specALUSemantics : Op → Int → Int → Int → Option Int
  | Op.ADD, vj, vk, _ => some (toInt32 (vj + vk))
  | Op.SUB, vj, vk, _ => some (toInt32 (vj - vk))
  | Op.AND, vj, vk, _ =>
      some (toInt32 (Int.ofNat (Nat.land (toUInt32 vj) (toUInt32 vk))))
  | Op.OR, vj, vk, _ =>
      some (toInt32 (Int.ofNat (Nat.lor (toUInt32 vj) (toUInt32 vk))))
  | Op.XOR, vj, vk, _ =>
      some (toInt32 (Int.ofNat (Nat.xor (toUInt32 vj) (toUInt32 vk))))
  | Op.SLT, vj, vk, _ => some (if toInt32 vj < toInt32 vk then 1 else 0)
  | Op.ADDI, vj, _, imm => some (toInt32 (vj + imm))
  | _, _, _, _ => none

/-- A reservation station about to complete `AND` on operands 1 and 1. -/
def rsAND : RSEntry :=
  { busy := true, op := Op.AND, vj := 1, vk := 1, qj := -1, qk := -1
    robTag := 1, executionCyclesLeft := 1, totalCycles := 1 }

/-- A reservation station about to complete `ADD` on two maximal 32-bit
signed values. -/
def rsADDovf : RSEntry :=
  { busy := true, op := Op.ADD, vj := 2147483647, vk := 2147483647
    qj := -1, qk := -1, robTag := 1, executionCyclesLeft := 1, totalCycles := 1 }

def robEntryPlain (tag : Int) (op : Op) (rd : Fin 32) : ROBEntry :=
  { robTag := tag, op := op, rd := rd, pc := 0, instText := ""
    isReady := false, result := 0, predictedTaken := false, targetAddr := 0 }

def sAND : SimState := { initSim wc0 with rob := [robEntryPlain 1 Op.AND 3] }
def sADDovf : SimState := { initSim wc0 with rob := [robEntryPlain 1 Op.ADD 3] }

example : ((execOneRS rsAND sAND).2.rob.map ROBEntry.result) = [0] := by decide
example : ((execOneRS rsAND sAND).2.rob.map ROBEntry.isReady) = [true] := by decide
example : ((execOneRS rsADDovf sADDovf).2.rob.map ROBEntry.result) = [4294967294] := by decide
example : specALUSemantics Op.AND 1 1 0 = some 1 := by decide
example : specALUSemantics Op.ADD 2147483647 2147483647 0 = some (-2) := by decide

/-- A state with one in-flight store in the LSQ (the failing input for the
flush claim). -/
def lsqE1 : LSQEntry :=
  { robTag := 1, isStore := true, memAddr := 0, value := 7, isMemReady := true }

def sC1 : SimState := { initSim wc0 with lsq := [lsqE1] }

example : (flushPipeline 8 true sC1).lsq = [lsqE1] := by decide

/-- A ready load at the ROB head whose tag does not match the LSQ head
(the post-flush stall situation of claim C4). -/
def headC4 : ROBEntry :=
  { robTag := 5, op := Op.LW, rd := 1, pc := 0, instText := ""
    isReady := true, result := 42, predictedTaken := false, targetAddr := 0 }

def lsqStale : LSQEntry :=
  { robTag := 3, isStore := false, memAddr := 0, value := 0, isMemReady := true }

def sC4 : SimState := { initSim wc0 with rob := [headC4], lsq := [lsqStale] }

example : (stageCommit sC4).regFile 1 = 42 := by decide
example : sC4.regFile 1 = 0 := by decide
example : (stageCommit sC4).rob = [headC4] := by decide
example : (stageCommit sC4).lsq = [lsqStale] := by decide
example : (stageCommit sC4).instructionsCommitted = 0 := by decide

theorem land1023_eq_mod (n : Nat) : Nat.land n 1023 = n % 1024 := by
  show n &&& 1023 = n % 1024
  apply Nat.eq_of_testBit_eq
  intro i
  rw [Nat.testBit_and]
  have h1024 : (1024 : Nat) = 2 ^ 10 := by norm_num
  rw [h1024, Nat.testBit_mod_two_pow]
  by_cases h : i < 10
  · have ht : Nat.testBit 1023 i = true := by
      interval_cases i <;> decide
    simp [ht, h]
  · have : Nat.testBit 1023 i = false := by
      apply Nat.testBit_lt_two_pow
      calc (1023 : Nat) < 2 ^ 10 := by norm_num
        _ ≤ 2 ^ i := Nat.pow_le_pow_right (by norm_num) (by omega)
    simp [this, h]

/-- C1: `flushPipeline` empties the ROB and both reservation-station
pools, sets every RAT entry to architectural (−1), redirects the PC to the
provided address and leaves the ARF untouched — but it does NOT discard
the LSQ entries: the LSQ is left unchanged in every state, and in the
failing state `sC1` (one in-flight store queued) the entry survives the
flush, contradicting the claim. -/
theorem c1_flush_leaves_lsq :
    (∀ (pcv : Int) (tk : Bool) (s : SimState), (flushPipeline pcv tk s).lsq = s.lsq) ∧
    (flushPipeline 8 true sC1).rob = [] ∧
    (flushPipeline 8 true sC1).rsALU = initRSList 8 ∧
    (flushPipeline 8 true sC1).rsLS = initRSList 4 ∧
    (flushPipeline 8 true sC1).rat = (fun _ => -1) ∧
    (flushPipeline 8 true sC1).pc = 8 ∧
    (flushPipeline 8 true sC1).regFile = sC1.regFile ∧
    (flushPipeline 8 true sC1).lsq = [lsqE1] ∧
    ([lsqE1] : List LSQEntry) ≠ [] := by
  refine ⟨fun pcv tk s => ?_, rfl, rfl, rfl, rfl, rfl, rfl, rfl, by decide⟩
  unfold flushPipeline
  split <;> rfl

/-- C2: refuted.  When a busy reservation station's remaining cycles reach
zero, the result written to the instruction and broadcast to its ROB entry
is NOT the 32-bit two's-complement semantics of the opcode: the source's
result switch has no case for `AND` (nor `OR`/`XOR`/`SLT`), so the result
stays 0 (here on operands 1, 1 whose specified result is 1), and `ADD` is
computed exactly without wrapping (here 2147483647 + 2147483647 broadcasts
4294967294 where 32-bit semantics give −2). -/
theorem c2_exec_results_diverge_from_spec :
    ((execOneRS rsAND sAND).1.result = 0) ∧
    ((execOneRS rsAND sAND).2.rob.map ROBEntry.result = [0]) ∧
    ((execOneRS rsAND sAND).2.rob.map ROBEntry.isReady = [true]) ∧
    specALUSemantics Op.AND rsAND.vj rsAND.vk rsAND.imm = some 1 ∧
    ((0 : Int) ≠ 1) ∧
    ((execOneRS rsADDovf sADDovf).1.result = 4294967294) ∧
    ((execOneRS rsADDovf sADDovf).2.rob.map ROBEntry.result = [4294967294]) ∧
    specALUSemantics Op.ADD rsADDovf.vj rsADDovf.vk rsADDovf.imm = some (-2) ∧
    ((4294967294 : Int) ≠ -2) := by
  refine ⟨by decide, by decide, by decide, by decide, by decide,
          by decide, by decide, by decide, by decide⟩

/-- C3: refuted.  `Cache.access` stamps LRU ranks with `Date.now()` (the
wall clock), not a strictly-monotonic access counter: replaying the very
same five-address read trace under two wall-clock schedules (all five
calls in one millisecond vs. one millisecond apart) evicts different ways
and ends with different hit counters, so the simulator's observable
counters depend on the wall clock and two runs need not agree. -/
theorem c3_cache_hits_depend_on_wall_clock :
    traceSameMs.map Prod.snd = traceTicking.map Prod.snd ∧
    (replayAccesses (initCache 2 10) traceSameMs).hitCount = 2 ∧
    (replayAccesses (initCache 2 10) traceTicking).hitCount = 1 ∧
    (replayAccesses (initCache 2 10) traceSameMs).hitCount ≠
      (replayAccesses (initCache 2 10) traceTicking).hitCount := by
  refine ⟨by decide, by decide, by decide, by decide⟩

/-- C6: the gshare predictor predicts taken exactly when the counter at
`(pc XOR GHR) & 0x3FF` is at least 2; update saturatingly increments
(capped at 3) or decrements (floored at 0) that counter, leaves every
other counter unchanged, then shifts the outcome into the GHR from the
LSB masked to 10 bits; counters stay within [0, 3]. -/
theorem c6_gshare_predict_update (p : GsharePredictor) (pc : Int)
    (taken : Bool) (i : Nat) (hb : ∀ j, p.pht j ≤ 3) :
    (p.predict pc = true ↔ 2 ≤ p.pht (phtIndex pc p.ghr)) ∧
    ((p.update pc taken).pht (phtIndex pc p.ghr) =
      (if taken then min (p.pht (phtIndex pc p.ghr) + 1) 3
       else p.pht (phtIndex pc p.ghr) - 1)) ∧
    (i ≠ phtIndex pc p.ghr → (p.update pc taken).pht i = p.pht i) ∧
    ((p.update pc taken).ghr = (2 * p.ghr + (if taken then 1 else 0)) % 1024) ∧
    ((p.update pc taken).ghr < 1024) ∧
    ((p.update pc taken).pht i ≤ 3) := by
  have hidx := hb (phtIndex pc p.ghr)
  refine ⟨?_, ?_, ?_, ?_, ?_, ?_⟩
  · simp [GsharePredictor.predict]
  · simp only [GsharePredictor.update]
    split_ifs <;> omega
  · intro hne
    simp [GsharePredictor.update, hne]
  · simp only [GsharePredictor.update]
    exact land1023_eq_mod _
  · simp only [GsharePredictor.update, land1023_eq_mod]
    exact Nat.mod_lt _ (by norm_num)
  · by_cases hi : i = phtIndex pc p.ghr
    · subst hi
      simp only [GsharePredictor.update]
      split_ifs <;> omega
    · simp [GsharePredictor.update, hi, hb i]

/-- C6 witness: the theorem applied to the reset predictor at pc 0 with a
taken outcome, index 5. -/
theorem c6_gshare_predict_update_witness :
    (initPredictor.predict 0 = true ↔ 2 ≤ initPredictor.pht (phtIndex 0 initPredictor.ghr)) ∧
    ((initPredictor.update 0 true).pht (phtIndex 0 initPredictor.ghr) =
      (if true then min (initPredictor.pht (phtIndex 0 initPredictor.ghr) + 1) 3
       else initPredictor.pht (phtIndex 0 initPredictor.ghr) - 1)) ∧
    ((5 : Nat) ≠ phtIndex 0 initPredictor.ghr →
      (initPredictor.update 0 true).pht 5 = initPredictor.pht 5) ∧
    ((initPredictor.update 0 true).ghr =
      (2 * initPredictor.ghr + (if true then 1 else 0)) % 1024) ∧
    ((initPredictor.update 0 true).ghr < 1024) ∧
    ((initPredictor.update 0 true).pht 5 ≤ 3) :=
  c6_gshare_predict_update initPredictor 0 true 5
    (fun j => by simp [initPredictor])

/-- C10: `loadProgram` resets the PC, main memory, register file, RAT,
ROB, both reservation-station pools, the clock, the committed count and
the logs, and leaves the LSQ, the next ROB tag, the predictor state, both
caches (contents and counters) and the occupancy histories unchanged. -/
theorem c10_loadProgram_frame (prog : List InstrTemplate) (s : SimState) :
    (loadProgram prog s).pc = 0 ∧
    (loadProgram prog s).memory = (fun _ => 0) ∧
    (loadProgram prog s).regFile = (fun _ => 0) ∧
    (loadProgram prog s).rat = (fun _ => -1) ∧
    (loadProgram prog s).rob = [] ∧
    (loadProgram prog s).rsALU = initRSList 8 ∧
    (loadProgram prog s).rsLS = initRSList 4 ∧
    (loadProgram prog s).clock = 0 ∧
    (loadProgram prog s).instructionsCommitted = 0 ∧
    (loadProgram prog s).logs =
      [cicloOpen ++ toString (0 : Int) ++ cicloClose ++ msgLoaded] ∧
    (loadProgram prog s).instructions = prog ∧
    (loadProgram prog s).lsq = s.lsq ∧
    (loadProgram prog s).nextRobTag = s.nextRobTag ∧
    (loadProgram prog s).predictor = s.predictor ∧
    (loadProgram prog s).l1i = s.l1i ∧
    (loadProgram prog s).l1d = s.l1d ∧
    (loadProgram prog s).branchCorrect = s.branchCorrect ∧
    (loadProgram prog s).branchTotal = s.branchTotal ∧
    (loadProgram prog s).robOccupationHistory = s.robOccupationHistory ∧
    (loadProgram prog s).rsOccupationHistory = s.rsOccupationHistory := by
  refine ⟨rfl, rfl, rfl, rfl, rfl, rfl, rfl, rfl, rfl, rfl, rfl, rfl, rfl,
    rfl, rfl, rfl, rfl, rfl, rfl, rfl⟩

/-- The LSQ gate at commit: the LSQ head exists, carries the ROB head's
tag, and is memory-ready. -/
def lsqGateOpenB (s : SimState) (head : ROBEntry) : Bool :=
  match s.lsq with
  | [] => false
  | lh :: _ => decide (lh.robTag = head.robTag) && lh.isMemReady

theorem stageCommit_memStall (s : SimState) (head : ROBEntry)
    (rest : List ROBEntry) (hrob : s.rob = head :: rest)
    (hready : head.isReady = true) (hmem : head.op = Op.LW ∨ head.op = Op.SW)
    (hstall : lsqGateOpenB s head = false) :
    stageCommit s = { s with
      regFile :=
        if wbCond head then
          Function.update s.regFile head.rd (toInt32 head.result)
        else s.regFile
      rat :=
        if wbCond head ∧ s.rat head.rd = head.robTag then
          Function.update s.rat head.rd (-1)
        else s.rat } := by
  have hnb : ¬ (head.op = Op.BEQ ∨ head.op = Op.BNE) := by
    rcases hmem with h | h <;> rw [h] <;> decide
  have hsl : head.op = Op.SW ∨ head.op = Op.LW := hmem.symm
  cases hl : s.lsq with
  | nil =>
      simp [stageCommit, commitTail, hrob, hready, hnb, hsl, hl]
  | cons lh lt =>
      have hcond : ¬ (lh.robTag = head.robTag ∧ lh.isMemReady = true) := by
        unfold lsqGateOpenB at hstall
        rw [hl] at hstall
        simp at hstall
        intro hc
        exact absurd (hstall hc.1) (by simp [hc.2])
      simp [stageCommit, commitTail, hrob, hready, hnb, hsl, hl, hcond]

/-- C4 (amended): when the ROB head is a ready load or store whose LSQ
gate is closed (it is not the LSQ head with mem-ready set), `stageCommit`
stalls: the ROB (head included), LSQ, main memory, committed count, L1D
and predictor are unmodified — but the architectural register file is
nevertheless written with the head's result when the head is a load with
rd ≠ 0, and the RAT entry for rd is cleared if it still holds the head's
tag, because the source performs register writeback before the LSQ
check. -/
theorem c4_commit_mem_stall (s : SimState) (head : ROBEntry)
    (rest : List ROBEntry) (hrob : s.rob = head :: rest)
    (hready : head.isReady = true) (hmem : head.op = Op.LW ∨ head.op = Op.SW)
    (hstall : lsqGateOpenB s head = false) :
    (stageCommit s).rob = s.rob ∧
    (stageCommit s).lsq = s.lsq ∧
    (stageCommit s).memory = s.memory ∧
    (stageCommit s).instructionsCommitted = s.instructionsCommitted ∧
    (stageCommit s).l1d = s.l1d ∧
    (stageCommit s).predictor = s.predictor ∧
    (stageCommit s).regFile =
      (if head.op = Op.LW ∧ head.rd ≠ (0 : Fin 32) then
        Function.update s.regFile head.rd (toInt32 head.result)
      else s.regFile) ∧
    (stageCommit s).rat =
      (if head.op = Op.LW ∧ head.rd ≠ (0 : Fin 32) ∧ s.rat head.rd = head.robTag
       then Function.update s.rat head.rd (-1)
       else s.rat) := by
  have hiff : wbCond head ↔ (head.op = Op.LW ∧ head.rd ≠ (0 : Fin 32)) := by
    unfold wbCond
    rcases hmem with h | h <;> rw [h] <;> simp
  rw [stageCommit_memStall s head rest hrob hready hmem hstall]
  refine ⟨rfl, rfl, rfl, rfl, rfl, rfl, ?_, ?_⟩
  · simp only [hiff]
  · simp only [hiff, and_assoc]

/-- C4 counterexample: at the concrete stall state `sC4` (ready LW with
rd = x1 and result 42 at the ROB head, while the LSQ head carries a
different tag), `stageCommit` leaves the ROB head in place but writes the
architectural register file, refuting the claim that the ARF is unmodified
on a stalled cycle. -/
theorem c4_stall_modifies_regfile :
    robHeadIsMem sC4 = true ∧
    sC4.rob.map ROBEntry.isReady = [true] ∧
    lsqGateOpenB sC4 headC4 = false ∧
    (stageCommit sC4).rob = sC4.rob ∧
    (stageCommit sC4).instructionsCommitted = sC4.instructionsCommitted ∧
    (stageCommit sC4).regFile 1 = 42 ∧
    sC4.regFile 1 = 0 ∧
    (stageCommit sC4).regFile 1 ≠ sC4.regFile 1 := by
  refine ⟨by decide, by decide, by decide, by decide, by decide, by decide,
    by decide, by decide⟩

/-- C4 witness: the stall theorem applied at the concrete state `sC4`. -/
theorem c4_commit_mem_stall_witness :
    (sC4.rob = headC4 :: []) ∧ headC4.isReady = true ∧
    (headC4.op = Op.LW ∨ headC4.op = Op.SW) ∧
    lsqGateOpenB sC4 headC4 = false ∧
    ((stageCommit sC4).rob = sC4.rob ∧
     (stageCommit sC4).lsq = sC4.lsq ∧
     (stageCommit sC4).memory = sC4.memory ∧
     (stageCommit sC4).instructionsCommitted = sC4.instructionsCommitted ∧
     (stageCommit sC4).l1d = sC4.l1d ∧
     (stageCommit sC4).predictor = sC4.predictor ∧
     (stageCommit sC4).regFile =
       (if headC4.op = Op.LW ∧ headC4.rd ≠ (0 : Fin 32) then
         Function.update sC4.regFile headC4.rd (toInt32 headC4.result)
       else sC4.regFile) ∧
     (stageCommit sC4).rat =
       (if headC4.op = Op.LW ∧ headC4.rd ≠ (0 : Fin 32) ∧
           sC4.rat headC4.rd = headC4.robTag
        then Function.update sC4.rat headC4.rd (-1)
        else sC4.rat)) :=
  ⟨rfl, rfl, Or.inl rfl, by decide,
    c4_commit_mem_stall sC4 headC4 [] rfl rfl (Or.inl rfl) (by decide)⟩

theorem stageCommit_branch (s : SimState) (head : ROBEntry)
    (rest : List ROBEntry) (hrob : s.rob = head :: rest)
    (hready : head.isReady = true)
    (hbr : head.op = Op.BEQ ∨ head.op = Op.BNE) :
    ((stageCommit s).predictor =
      s.predictor.update head.pc (decide (head.result = 1))) ∧
    ((stageCommit s).branchTotal = s.branchTotal + 1) ∧
    ((stageCommit s).branchCorrect =
      (if decide (head.result = 1) = head.predictedTaken then s.branchCorrect + 1
       else s.branchCorrect)) ∧
    (decide (head.result = 1) ≠ head.predictedTaken →
      (stageCommit s).pc = head.targetAddr ∧
      (stageCommit s).rob = [] ∧
      (stageCommit s).rsALU = initRSList 8 ∧
      (stageCommit s).rsLS = initRSList 4 ∧
      (stageCommit s).rat = (fun _ => -1) ∧
      (stageCommit s).regFile = s.regFile ∧
      (stageCommit s).lsq = s.lsq ∧
      (stageCommit s).instructionsCommitted = s.instructionsCommitted) ∧
    (decide (head.result = 1) = head.predictedTaken →
      (stageCommit s).rob = rest ∧
      (stageCommit s).instructionsCommitted = s.instructionsCommitted + 1 ∧
      (stageCommit s).regFile = s.regFile ∧
      (stageCommit s).pc = s.pc) := by
  have hwb : ¬ wbCond head := by
    unfold wbCond
    rcases hbr with h | h <;> rw [h] <;> simp
  have hnm : ¬ (head.op = Op.SW ∨ head.op = Op.LW) := by
    rcases hbr with h | h <;> rw [h] <;> decide
  by_cases hd : decide (head.result = 1) = head.predictedTaken
  · simp [stageCommit, commitTail, popROB, hrob, hready, hbr, hd, hwb, hnm]
  · simp [stageCommit, commitTail, popROB, flushPipeline, SimState.log,
      hrob, hready, hbr, hd, hwb, hnm]

/-- The branch outcome as the source computes it: 1 when the condition
holds, 0 otherwise. -/
def branchVal (rs : RSEntry) : Int :=
  if (rs.op = Op.BEQ ∧ rs.vj = rs.vk) ∨ (rs.op = Op.BNE ∧ rs.vj ≠ rs.vk) then 1
  else 0

theorem execOneRS_branch (rs : RSEntry) (sx : SimState) (e : ROBEntry)
    (erest : List ROBEntry) (hbusy : rs.busy = true) (hqj : rs.qj = -1)
    (hqk : rs.qk = -1) (hnr : rs.instIsReady = false)
    (hcy : rs.executionCyclesLeft = 1)
    (hbr : rs.op = Op.BEQ ∨ rs.op = Op.BNE)
    (hxrob : sx.rob = e :: erest) (htag : e.robTag = rs.robTag) :
    (execOneRS rs sx).2.rob =
      ({ e with
          result := branchVal rs
          isReady := true
          targetAddr :=
            if branchVal rs = 1 then rs.pc + rs.imm else rs.pc + 4 }
        :: erest) ∧
    (execOneRS rs sx).1.result = branchVal rs ∧
    (execOneRS rs sx).1.instIsReady = true ∧
    (execOneRS rs sx).1.busy = false := by
  rcases hbr with h | h <;>
    simp [execOneRS, execFinish, capture1, capture2, execComplete,
      broadcastROB, updateFirst, branchVal, SimState.log, hbusy, hqj, hqk,
      hnr, hcy, h, hxrob, htag]

/-- C5: when the ROB head is a ready BEQ/BNE, `stageCommit` compares the
actual direction (`result = 1`) with the predicted-taken flag, updates the
predictor with the actual direction, and on a mismatch flushes with the
head's target address as the redirect PC, committing nothing that cycle;
and at execute completion a branch writes into its ROB entry the outcome
(1 iff the condition holds) together with the target address, `pc + imm`
when taken and `pc + 4` otherwise. -/
theorem c5_branch_commit_and_target (s : SimState) (head : ROBEntry)
    (rest : List ROBEntry) (hrob : s.rob = head :: rest)
    (hready : head.isReady = true)
    (hbr : head.op = Op.BEQ ∨ head.op = Op.BNE)
    (rs : RSEntry) (sx : SimState) (e : ROBEntry) (erest : List ROBEntry)
    (hbusy : rs.busy = true) (hqj : rs.qj = -1) (hqk : rs.qk = -1)
    (hnr : rs.instIsReady = false) (hcy : rs.executionCyclesLeft = 1)
    (hbr2 : rs.op = Op.BEQ ∨ rs.op = Op.BNE)
    (hxrob : sx.rob = e :: erest) (htag : e.robTag = rs.robTag) :
    ((stageCommit s).predictor =
      s.predictor.update head.pc (decide (head.result = 1))) ∧
    ((stageCommit s).branchTotal = s.branchTotal + 1) ∧
    ((stageCommit s).branchCorrect =
      (if decide (head.result = 1) = head.predictedTaken then s.branchCorrect + 1
       else s.branchCorrect)) ∧
    (decide (head.result = 1) ≠ head.predictedTaken →
      (stageCommit s).pc = head.targetAddr ∧
      (stageCommit s).rob = [] ∧
      (stageCommit s).instructionsCommitted = s.instructionsCommitted) ∧
    ((execOneRS rs sx).2.rob =
      ({ e with
          result := branchVal rs
          isReady := true
          targetAddr :=
            if branchVal rs = 1 then rs.pc + rs.imm else rs.pc + 4 }
        :: erest)) ∧
    ((execOneRS rs sx).1.result = branchVal rs) := by
  obtain ⟨hp, ht, hc, hmis, _⟩ := stageCommit_branch s head rest hrob hready hbr
  obtain ⟨he1, he2, _, _⟩ :=
    execOneRS_branch rs sx e erest hbusy hqj hqk hnr hcy hbr2 hxrob htag
  exact ⟨hp, ht, hc, fun hd => ⟨(hmis hd).1, (hmis hd).2.1, (hmis hd).2.2.2.2.2.2.2⟩,
    he1, he2⟩

def robDefault : ROBEntry := robEntryPlain 0 Op.NOP 0

/-- The state two cycles into the `progC7` run: the mispredicted BEQ is
the ready ROB head. -/
def sMis : SimState := stepN 2 (resetSim progC7 wc0)

def headMis : ROBEntry := sMis.rob.headD robDefault

def restMis : List ROBEntry := sMis.rob.tail

/-- A branch reservation station one cycle from completion. -/
def rsBEQ : RSEntry :=
  { busy := true, op := Op.BEQ, vj := 0, vk := 0, qj := -1, qk := -1
    robTag := 1, pc := 0, imm := 8, executionCyclesLeft := 1, totalCycles := 1 }

def eBEQ : ROBEntry := robEntryPlain 1 Op.BEQ 0

def sxBEQ : SimState := { initSim wc0 with rob := [eBEQ] }

/-- C5 witness: the theorem applied at the concrete mispredicted-branch
commit state `sMis` and the concrete completing branch station `rsBEQ`. -/
theorem c5_branch_commit_and_target_witness :
    (sMis.rob = headMis :: restMis) ∧ headMis.isReady = true ∧
    headMis.op = Op.BEQ ∧ rsBEQ.busy = true ∧
    sxBEQ.rob = eBEQ :: [] ∧ eBEQ.robTag = rsBEQ.robTag ∧
    (((stageCommit sMis).predictor =
        sMis.predictor.update headMis.pc (decide (headMis.result = 1))) ∧
      ((stageCommit sMis).branchTotal = sMis.branchTotal + 1) ∧
      ((stageCommit sMis).branchCorrect =
        (if decide (headMis.result = 1) = headMis.predictedTaken then
          sMis.branchCorrect + 1
        else sMis.branchCorrect)) ∧
      (decide (headMis.result = 1) ≠ headMis.predictedTaken →
        (stageCommit sMis).pc = headMis.targetAddr ∧
        (stageCommit sMis).rob = [] ∧
        (stageCommit sMis).instructionsCommitted = sMis.instructionsCommitted) ∧
      ((execOneRS rsBEQ sxBEQ).2.rob =
        ({ eBEQ with
            result := branchVal rsBEQ
            isReady := true
            targetAddr :=
              if branchVal rsBEQ = 1 then rsBEQ.pc + rsBEQ.imm
              else rsBEQ.pc + 4 }
          :: [])) ∧
      ((execOneRS rsBEQ sxBEQ).1.result = branchVal rsBEQ)) :=
  ⟨by decide, by decide, by decide, rfl, rfl, by decide,
    c5_branch_commit_and_target sMis headMis restMis (by decide) (by decide)
      (Or.inl (by decide)) rsBEQ sxBEQ eBEQ [] rfl rfl rfl rfl rfl
      (Or.inl rfl) rfl (by decide)⟩

theorem updateFirst_map (p : α → Bool) (f : α → α) (g : α → β)
    (hg : ∀ a, g (f a) = g a) :
    ∀ l : List α, (updateFirst p f l).map g = l.map g
  | [] => rfl
  | x :: xs => by
      unfold updateFirst
      split
      · simp [hg]
      · simp [updateFirst_map p f g hg xs]

theorem updateLast_map (f : α → α) (g : α → β) (hg : ∀ a, g (f a) = g a) :
    ∀ l : List α, (updateLast f l).map g = l.map g
  | [] => rfl
  | [x] => by simp [updateLast, hg]
  | x :: y :: xs => by
      simp [updateLast, updateLast_map f g hg (y :: xs)]

theorem broadcastROB_map_tag (tag : Int) (op : Op) (pcv imm val : Int)
    (rob : List ROBEntry) :
    (broadcastROB tag op pcv imm val rob).map ROBEntry.robTag =
      rob.map ROBEntry.robTag := by
  apply updateFirst_map
  intro a
  unfold ROBEntry.robTag
  split <;> rfl

theorem execComplete_frame (rs : RSEntry) (s : SimState) :
    (execComplete rs s).2.instructionsCommitted = s.instructionsCommitted ∧
    (execComplete rs s).2.nextRobTag = s.nextRobTag ∧
    (execComplete rs s).2.regFile = s.regFile ∧
    (execComplete rs s).2.rat = s.rat ∧
    (execComplete rs s).2.rob = s.rob ∧
    (execComplete rs s).2.lsq.map LSQEntry.robTag =
      s.lsq.map LSQEntry.robTag := by
  cases h : rs.op <;>
    simp [execComplete, h, simAccessL1D, takeNow] <;>
    (apply updateFirst_map; intro a; rfl)

theorem execFinish_frame (rsC : RSEntry) (s : SimState) :
    (execFinish rsC s).2.instructionsCommitted = s.instructionsCommitted ∧
    (execFinish rsC s).2.nextRobTag = s.nextRobTag ∧
    (execFinish rsC s).2.regFile = s.regFile ∧
    (execFinish rsC s).2.rat = s.rat ∧
    (execFinish rsC s).2.rob.map ROBEntry.robTag = s.rob.map ROBEntry.robTag ∧
    (execFinish rsC s).2.lsq.map LSQEntry.robTag =
      s.lsq.map LSQEntry.robTag := by
  obtain ⟨h1, h2, h3, h4, h5, h6⟩ := execComplete_frame rsC s
  unfold execFinish
  simp only [SimState.log]
  exact ⟨h1, h2, h3, h4, by rw [broadcastROB_map_tag, h5], h6⟩

theorem execOneRS_frame (rs0 : RSEntry) (s : SimState) :
    (execOneRS rs0 s).2.instructionsCommitted = s.instructionsCommitted ∧
    (execOneRS rs0 s).2.nextRobTag = s.nextRobTag ∧
    (execOneRS rs0 s).2.regFile = s.regFile ∧
    (execOneRS rs0 s).2.rat = s.rat ∧
    (execOneRS rs0 s).2.rob.map ROBEntry.robTag = s.rob.map ROBEntry.robTag ∧
    (execOneRS rs0 s).2.lsq.map LSQEntry.robTag =
      s.lsq.map LSQEntry.robTag := by
  unfold execOneRS
  split
  · exact ⟨rfl, rfl, rfl, rfl, rfl, rfl⟩
  · dsimp only
    split
    · split <;> split <;>
        first
          | exact execFinish_frame _ s
          | exact ⟨rfl, rfl, rfl, rfl, rfl, rfl⟩
    · exact ⟨rfl, rfl, rfl, rfl, rfl, rfl⟩

theorem execList_frame (l : List RSEntry) :
    ∀ s : SimState,
    (execList l s).2.instructionsCommitted = s.instructionsCommitted ∧
    (execList l s).2.nextRobTag = s.nextRobTag ∧
    (execList l s).2.regFile = s.regFile ∧
    (execList l s).2.rat = s.rat ∧
    (execList l s).2.rob.map ROBEntry.robTag = s.rob.map ROBEntry.robTag ∧
    (execList l s).2.lsq.map LSQEntry.robTag =
      s.lsq.map LSQEntry.robTag := by
  induction l with
  | nil => exact fun s => ⟨rfl, rfl, rfl, rfl, rfl, rfl⟩
  | cons rs rest ih =>
      intro s
      obtain ⟨h1, h2, h3, h4, h5, h6⟩ := execOneRS_frame rs s
      obtain ⟨g1, g2, g3, g4, g5, g6⟩ := ih (execOneRS rs s).2
      exact ⟨g1.trans h1, g2.trans h2, g3.trans h3, g4.trans h4,
        g5.trans h5, g6.trans h6⟩

theorem stageExecute_frame (s : SimState) :
    (stageExecute s).instructionsCommitted = s.instructionsCommitted ∧
    (stageExecute s).nextRobTag = s.nextRobTag ∧
    (stageExecute s).regFile = s.regFile ∧
    (stageExecute s).rat = s.rat ∧
    (stageExecute s).rob.map ROBEntry.robTag = s.rob.map ROBEntry.robTag ∧
    (stageExecute s).lsq.map LSQEntry.robTag = s.lsq.map LSQEntry.robTag := by
  obtain ⟨h1, h2, h3, h4, h5, h6⟩ := execList_frame s.rsALU s
  obtain ⟨g1, g2, g3, g4, g5, g6⟩ :=
    execList_frame s.rsLS (execList s.rsALU s).2
  unfold stageExecute
  exact ⟨g1.trans h1, g2.trans h2, g3.trans h3, g4.trans h4,
    g5.trans h5, g6.trans h6⟩

theorem commitTail_master (head : ROBEntry) (rest : List ROBEntry)
    (s : SimState) (hrob : s.rob = head :: rest) :
    (commitTail head s).nextRobTag = s.nextRobTag ∧
    (∀ r, r ∈ (commitTail head s).rob → r ∈ s.rob) ∧
    (∀ l, l ∈ (commitTail head s).lsq → l ∈ s.lsq) ∧
    (s.regFile 0 = 0 → (commitTail head s).regFile 0 = 0) ∧
    (s.rat 0 = -1 → (commitTail head s).rat 0 = -1) ∧
    (((commitTail head s).instructionsCommitted : Int) +
        ((commitTail head s).rob.length : Int) =
      (s.instructionsCommitted : Int) + (s.rob.length : Int)) ∧
    (∀ t, lsqHeadTag s = some t → (∀ r ∈ s.rob, r.robTag ≠ t) →
      (commitTail head s).lsq = s.lsq) := by
  have hreg0 : ((if wbCond head then
      Function.update s.regFile head.rd (toInt32 head.result)
    else s.regFile) : Fin 32 → Int) 0 = s.regFile 0 := by
    split
    · next hwb => exact Function.update_noteq (Ne.symm hwb.1) _ _
    · rfl
  have hrat0 : ((if wbCond head ∧ s.rat head.rd = head.robTag then
      Function.update s.rat head.rd (-1) else s.rat) : Fin 32 → Int) 0
      = s.rat 0 := by
    split
    · next hwb => exact Function.update_noteq (Ne.symm hwb.1.1) _ _
    · rfl
  have hcount : ((s.instructionsCommitted + 1 : Nat) : Int) +
      ((s.rob.tail.length : Nat) : Int) =
      (s.instructionsCommitted : Int) + (s.rob.length : Int) := by
    rw [hrob]
    push_cast
    simp
    ring
  unfold commitTail
  dsimp only
  split
  · -- load or store at the head: gate through the LSQ
    cases hl : s.lsq with
    | nil =>
        dsimp only
        exact ⟨rfl, fun r h => h, fun l h => by simp at h,
          fun h => hreg0.trans h, fun h => hrat0.trans h, rfl,
          fun t ht hn => by simp [hl]⟩
    | cons lh lt =>
        dsimp only
        split
        · next hgate =>
          -- the LSQ head matches and is ready: pop both queues
          have hfrozen : ∀ t, lsqHeadTag s = some t →
              (∀ r ∈ s.rob, r.robTag ≠ t) → False := by
            intro t ht hn
            rw [lsqHeadTag, hl] at ht
            simp at ht
            have hh : head ∈ s.rob := by rw [hrob]; exact List.mem_cons_self _ _
            exact hn head hh (hgate.1.symm.trans ht)
          split <;>
            exact ⟨rfl, fun r h => List.tail_subset _ h,
              fun l h => List.mem_cons_of_mem _ h,
              fun h => hreg0.trans h, fun h => hrat0.trans h, hcount,
              fun t ht hn => (hfrozen t ht hn).elim⟩
        · -- gate closed: stall, only the writeback above happened
          exact ⟨rfl, fun r h => h, fun l h => by simpa using h,
            fun h => hreg0.trans h, fun h => hrat0.trans h, rfl,
            fun t ht hn => by simp [hl]⟩
  · -- not a memory op: retire the head
    exact ⟨rfl, fun r h => List.tail_subset _ h, fun l h => h,
      fun h => hreg0.trans h, fun h => hrat0.trans h, hcount,
      fun t ht hn => rfl⟩

theorem stageCommit_master (s : SimState) :
    (stageCommit s).nextRobTag = s.nextRobTag ∧
    (∀ r, r ∈ (stageCommit s).rob → r ∈ s.rob) ∧
    (∀ l, l ∈ (stageCommit s).lsq → l ∈ s.lsq) ∧
    (s.regFile 0 = 0 → (stageCommit s).regFile 0 = 0) ∧
    (s.rat 0 = -1 → (stageCommit s).rat 0 = -1) ∧
    (mispredictAt s = false →
      ((stageCommit s).instructionsCommitted : Int) +
        ((stageCommit s).rob.length : Int) =
      (s.instructionsCommitted : Int) + (s.rob.length : Int)) ∧
    (∀ t, lsqHeadTag s = some t → (∀ r ∈ s.rob, r.robTag ≠ t) →
      (stageCommit s).lsq = s.lsq) := by
  cases hrob : s.rob with
  | nil =>
      rw [← hrob]
      have hs : stageCommit s = s := by simp [stageCommit, hrob]
      rw [hs]
      exact ⟨rfl, fun r h => h, fun l h => h, id, id, fun _ => rfl,
        fun t ht hn => rfl⟩
  | cons head rest =>
      rw [← hrob]
      by_cases hready : head.isReady = true
      · by_cases hbr : head.op = Op.BEQ ∨ head.op = Op.BNE
        · by_cases hd : decide (head.result = 1) = head.predictedTaken
          · -- correctly predicted branch: counters, predictor, then retire
            have heq : stageCommit s = commitTail head { s with
                branchTotal := s.branchTotal + 1
                branchCorrect := s.branchCorrect + 1
                predictor :=
                  s.predictor.update head.pc (decide (head.result = 1)) } := by
              simp [stageCommit, hrob, hready, hbr, hd]
            obtain ⟨m1, m2, m3, m4, m5, m6, m7⟩ :=
              commitTail_master head rest { s with
                branchTotal := s.branchTotal + 1
                branchCorrect := s.branchCorrect + 1
                predictor :=
                  s.predictor.update head.pc (decide (head.result = 1)) } hrob
            rw [heq]
            exact ⟨m1, m2, m3, m4, m5, fun _ => m6, m7⟩
          · -- mispredicted branch: flush
            have hmis : mispredictAt s = true := by
              simp [mispredictAt, hrob, hready, hbr, hd]
            refine ⟨?_, ?_, ?_, ?_, ?_, ?_, ?_⟩
            · simp [stageCommit, flushPipeline, SimState.log, hrob, hready,
                hbr, hd]
            · simp [stageCommit, flushPipeline, SimState.log, hrob, hready,
                hbr, hd]
            · simp [stageCommit, flushPipeline, SimState.log, hrob, hready,
                hbr, hd]
            · intro h
              simp [stageCommit, flushPipeline, SimState.log, hrob, hready,
                hbr, hd, h]
            · intro h
              simp [stageCommit, flushPipeline, SimState.log, hrob, hready,
                hbr, hd]
            · intro hfalse
              rw [hmis] at hfalse
              cases hfalse
            · intro t ht hn
              simp [stageCommit, flushPipeline, SimState.log, hrob, hready,
                hbr, hd]
        · -- not a branch: straight to commitTail
          have heq : stageCommit s = commitTail head s := by
            simp [stageCommit, hrob, hready, hbr]
          obtain ⟨m1, m2, m3, m4, m5, m6, m7⟩ :=
            commitTail_master head rest s hrob
          rw [heq]
          exact ⟨m1, m2, m3, m4, m5, fun _ => m6, m7⟩
      · -- head not ready: nothing happens
        have hs : stageCommit s = s := by simp [stageCommit, hrob, hready]
        rw [hs]
        exact ⟨rfl, fun r h => h, fun l h => h, id, id, fun _ => rfl,
          fun t ht hn => rfl⟩

set_option maxHeartbeats 2000000 in
theorem issueCore_master (t : InstrTemplate) (isLS : Bool) (rsIdx : Nat)
    (s : SimState) :
    (issueCore t isLS rsIdx s).instructionsCommitted =
      s.instructionsCommitted ∧
    (issueCore t isLS rsIdx s).nextRobTag = s.nextRobTag + 1 ∧
    (issueCore t isLS rsIdx s).rob.map ROBEntry.robTag =
      s.rob.map ROBEntry.robTag ++ [s.nextRobTag] ∧
    ((issueCore t isLS rsIdx s).lsq.map LSQEntry.robTag =
        s.lsq.map LSQEntry.robTag ∨
      (issueCore t isLS rsIdx s).lsq.map LSQEntry.robTag =
        s.lsq.map LSQEntry.robTag ++ [s.nextRobTag]) ∧
    (issueCore t isLS rsIdx s).regFile = s.regFile ∧
    (s.rat 0 = -1 → (issueCore t isLS rsIdx s).rat 0 = -1) := by
  have hrat : ∀ (f : Fin 32 → Int) (v : Int), f 0 = -1 →
      ((if t.rd ≠ (0 : Fin 32) ∧ t.op ≠ Op.BEQ ∧ t.op ≠ Op.BNE ∧
          t.op ≠ Op.SW
        then Function.update f t.rd v else f) : Fin 32 → Int) 0 = -1 := by
    intro f v h
    split
    · next hc => exact (Function.update_noteq (Ne.symm hc.1) _ _).trans h
    · exact h
  have hul : ∀ (b : Bool) (l : List ROBEntry),
      (updateLast (fun r => { r with predictedTaken := b }) l).map
        ROBEntry.robTag = l.map ROBEntry.robTag :=
    fun b l => by apply updateLast_map; intro a; rfl
  have hlsq : ∀ (l : List LSQEntry) (e : LSQEntry),
      ((if isLS then l ++ [e] else l).map LSQEntry.robTag =
        l.map LSQEntry.robTag) ∨
      ((if isLS then l ++ [e] else l).map LSQEntry.robTag =
        l.map LSQEntry.robTag ++ [e.robTag]) := by
    intro l e
    cases isLS
    · left; rfl
    · right; simp
  unfold issueCore
  dsimp only
  split
  all_goals split
  all_goals try split
  all_goals
    refine ⟨rfl, rfl, ?_, ?_, rfl, fun h => hrat _ _ h⟩
  all_goals
    first
      | exact hlsq s.lsq _
      | simp [hul, SimState.log, simAccessL1I, takeNow]

theorem stageFetchAndIssue_spec (s : SimState) :
    ((stageFetchAndIssue s).2 = false → (stageFetchAndIssue s).1 = s) ∧
    ((stageFetchAndIssue s).2 = true →
      ∃ t isLS rsIdx, (stageFetchAndIssue s).1 = issueCore t isLS rsIdx s) := by
  unfold stageFetchAndIssue
  split
  · exact ⟨fun _ => rfl, fun h => by simp at h⟩
  · split
    · exact ⟨fun _ => rfl, fun h => by simp at h⟩
    · dsimp only
      split
      · exact ⟨fun _ => rfl, fun h => by simp at h⟩
      · exact ⟨fun h => by simp at h, fun _ => ⟨_, _, _, rfl⟩⟩

theorem issueLoop_master (n : Nat) : ∀ s : SimState,
    (issueLoop n s).instructionsCommitted = s.instructionsCommitted ∧
    (issueLoop n s).regFile = s.regFile ∧
    (s.rat 0 = -1 → (issueLoop n s).rat 0 = -1) ∧
    s.nextRobTag ≤ (issueLoop n s).nextRobTag ∧
    (((issueLoop n s).instructionsCommitted : Int) +
        ((issueLoop n s).rob.length : Int) - (issueLoop n s).nextRobTag =
      (s.instructionsCommitted : Int) + (s.rob.length : Int) - s.nextRobTag) ∧
    (∃ newRob newLsq,
      (issueLoop n s).rob.map ROBEntry.robTag =
        s.rob.map ROBEntry.robTag ++ newRob ∧
      (issueLoop n s).lsq.map LSQEntry.robTag =
        s.lsq.map LSQEntry.robTag ++ newLsq ∧
      (∀ x ∈ newRob, s.nextRobTag ≤ x ∧ x < (issueLoop n s).nextRobTag) ∧
      (∀ x ∈ newLsq, s.nextRobTag ≤ x ∧ x < (issueLoop n s).nextRobTag)) := by
  induction n with
  | zero =>
      intro s
      exact ⟨rfl, rfl, fun h => h, le_refl _, rfl,
        [], [], by simp [issueLoop], by simp [issueLoop],
        by simp, by simp⟩
  | succ n ih =>
      intro s
      unfold issueLoop
      dsimp only
      split
      · -- an instruction was issued; recurse
        next hok =>
        obtain ⟨t, isLS, rsIdx, heq⟩ := (stageFetchAndIssue_spec s).2 hok
        rw [heq]
        obtain ⟨i1, i2, i3, i4, i5, i6⟩ := issueCore_master t isLS rsIdx s
        obtain ⟨g1, g2, g3, g4, g5, gRob, gLsq, gr, gl, gbr, gbl⟩ :=
          ih (issueCore t isLS rsIdx s)
        have hnext : s.nextRobTag + 1 ≤ (issueLoop n (issueCore t isLS rsIdx s)).nextRobTag := by
          rw [← i2]
          exact g4
        have hlen : ((issueCore t isLS rsIdx s).rob.length : Int) =
            (s.rob.length : Int) + 1 := by
          have h := congrArg List.length i3
          simp at h
          omega
        have hbnew : ∀ x ∈ ([s.nextRobTag] : List Int), s.nextRobTag ≤ x ∧
            x < (issueLoop n (issueCore t isLS rsIdx s)).nextRobTag := by
          intro x hx
          simp at hx
          subst hx
          omega
        have hbold : ∀ (L : List Int), (∀ x ∈ L,
            (issueCore t isLS rsIdx s).nextRobTag ≤ x ∧
              x < (issueLoop n (issueCore t isLS rsIdx s)).nextRobTag) →
            ∀ x ∈ L, s.nextRobTag ≤ x ∧
              x < (issueLoop n (issueCore t isLS rsIdx s)).nextRobTag := by
          intro L hL x hx
          have := hL x hx
          rw [i2] at this
          exact ⟨by omega, this.2⟩
        refine ⟨g1.trans i1, g2.trans i5, fun h => g3 (i6 h), by omega, ?_, ?_⟩
        · rw [g5, i1, i2, hlen]
          ring
        · rcases i4 with h4 | h4
          · refine ⟨[s.nextRobTag] ++ gRob, gLsq, ?_, ?_, ?_, hbold gLsq gbl⟩
            · rw [gr, i3]
              simp
            · rw [gl, h4]
            · intro x hx
              rcases List.mem_append.mp hx with hx | hx
              · exact hbnew x hx
              · exact hbold gRob gbr x hx
          · refine ⟨[s.nextRobTag] ++ gRob, [s.nextRobTag] ++ gLsq, ?_, ?_,
              ?_, ?_⟩
            · rw [gr, i3]
              simp
            · rw [gl, h4]
              simp
            · intro x hx
              rcases List.mem_append.mp hx with hx | hx
              · exact hbnew x hx
              · exact hbold gRob gbr x hx
            · intro x hx
              rcases List.mem_append.mp hx with hx | hx
              · exact hbnew x hx
              · exact hbold gLsq gbl x hx
      · -- nothing issued: the failed attempt left the state unchanged
        next hok =>
        have : (stageFetchAndIssue s).1 = s :=
          (stageFetchAndIssue_spec s).1 (by simpa using hok)
        rw [this]
        exact ⟨rfl, rfl, fun h => h, le_refl _, rfl,
          [], [], by simp, by simp, by simp, by simp⟩

/-- Tags in flight are strictly below the allocation counter. -/
def TagInv (s : SimState) : Prop :=
  (∀ x ∈ s.rob.map ROBEntry.robTag, x < s.nextRobTag) ∧
  (∀ x ∈ s.lsq.map LSQEntry.robTag, x < s.nextRobTag)

/-- A stale tag `t` sits at the head of the LSQ: it is below the
allocation counter and matches no in-flight ROB entry. -/
def StaleInv (t : Int) (s : SimState) : Prop :=
  (s.lsq.map LSQEntry.robTag).head? = some t ∧
  t < s.nextRobTag ∧
  (∀ x ∈ s.rob.map ROBEntry.robTag, x ≠ t ∧ x < s.nextRobTag)

theorem head?_append_of_some {α : Type} {l1 l2 : List α} {a : α}
    (h : l1.head? = some a) : (l1 ++ l2).head? = some a := by
  cases l1 <;> simp_all

theorem mem_of_head?_some {α : Type} {l : List α} {a : α}
    (h : l.head? = some a) : a ∈ l := by
  cases l <;> simp_all

theorem mispredict_elim (s : SimState) (h : mispredictAt s = true) :
    ∃ head rest, s.rob = head :: rest ∧ head.isReady = true ∧
      (head.op = Op.BEQ ∨ head.op = Op.BNE) ∧
      decide (head.result = 1) ≠ head.predictedTaken := by
  unfold mispredictAt at h
  cases hrob : s.rob with
  | nil => rw [hrob] at h; simp at h
  | cons head rest =>
      rw [hrob] at h
      simp only [Bool.and_eq_true, decide_eq_true_eq, bne_iff_ne,
        ne_eq] at h
      exact ⟨head, rest, rfl, h.1.1, h.1.2, by simpa using h.2⟩

theorem step_x0 (s : SimState) :
    (s.regFile 0 = 0 → (step s).regFile 0 = 0) ∧
    (s.rat 0 = -1 → (step s).rat 0 = -1) := by
  unfold step
  split
  · exact ⟨fun h => h, fun h => h⟩
  · dsimp only
    obtain ⟨_, _, _, c4, c5, _, _⟩ :=
      stageCommit_master { s with clock := s.clock + 1 }
    obtain ⟨_, _, e3, e4, _, _⟩ :=
      stageExecute_frame (stageCommit { s with clock := s.clock + 1 })
    obtain ⟨_, l2, l3, _, _, _⟩ :=
      issueLoop_master
        (stageExecute (stageCommit { s with clock := s.clock + 1 })).width
        (stageExecute (stageCommit { s with clock := s.clock + 1 }))
    constructor
    · intro h
      show (issueLoop _ _).regFile 0 = 0
      rw [l2, e3]
      exact c4 h
    · intro h
      show (issueLoop _ _).rat 0 = -1
      apply l3
      rw [e4]
      exact c5 h

theorem step_balance (s : SimState) (h : mispredictAt s = false) :
    ((step s).instructionsCommitted : Int) + ((step s).rob.length : Int) -
        (step s).nextRobTag =
      (s.instructionsCommitted : Int) + (s.rob.length : Int) -
        s.nextRobTag := by
  unfold step
  split
  · rfl
  · dsimp only
    obtain ⟨c1, c2, _, _, _, c6, _⟩ :=
      stageCommit_master { s with clock := s.clock + 1 }
    obtain ⟨e1, e2, _, _, e5, _⟩ :=
      stageExecute_frame (stageCommit { s with clock := s.clock + 1 })
    obtain ⟨_, _, _, _, l5, _⟩ :=
      issueLoop_master
        (stageExecute (stageCommit { s with clock := s.clock + 1 })).width
        (stageExecute (stageCommit { s with clock := s.clock + 1 }))
    have hc := c6 h
    have helen : ((stageExecute (stageCommit { s with clock := s.clock + 1 })).rob.length : Int) =
        ((stageCommit { s with clock := s.clock + 1 }).rob.length : Int) := by
      have := congrArg List.length e5
      simp at this
      omega
    show ((issueLoop _ _).instructionsCommitted : Int) +
        ((issueLoop _ _).rob.length : Int) - (issueLoop _ _).nextRobTag = _
    rw [l5, e1, e2, helen]
    dsimp only at hc c1
    omega

theorem stageExecute_StaleInv (t : Int) (s : SimState) (h : StaleInv t s) :
    StaleInv t (stageExecute s) := by
  obtain ⟨_, e2, _, _, e5, e6⟩ := stageExecute_frame s
  refine ⟨?_, ?_, ?_⟩
  · rw [e6]
    exact h.1
  · rw [e2]
    exact h.2.1
  · rw [e5, e2]
    exact h.2.2

theorem issueLoop_StaleInv (t : Int) (n : Nat) (s : SimState)
    (h : StaleInv t s) : StaleInv t (issueLoop n s) := by
  obtain ⟨_, _, _, l4, _, newRob, newLsq, lr, ll, lbr, _⟩ :=
    issueLoop_master n s
  refine ⟨?_, ?_, ?_⟩
  · rw [ll]
    exact head?_append_of_some h.1
  · exact lt_of_lt_of_le h.2.1 l4
  · intro x hx
    rw [lr] at hx
    rcases List.mem_append.mp hx with hx | hx
    · have hb := h.2.2 x hx
      exact ⟨hb.1, lt_of_lt_of_le hb.2 l4⟩
    · have hb := lbr x hx
      have h21 := h.2.1
      have h1 := hb.1
      refine ⟨?_, hb.2⟩
      intro he
      omega

theorem step_StaleInv (t : Int) (s : SimState) (h : StaleInv t s) :
    StaleInv t (step s) := by
  unfold step
  split
  · exact h
  · dsimp only
    obtain ⟨c1, c2, _, _, _, _, c7⟩ :=
      stageCommit_master { s with clock := s.clock + 1 }
    have hlsq2 : (stageCommit { s with clock := s.clock + 1 }).lsq = s.lsq := by
      apply c7 t
      · exact h.1
      · intro r hr
        exact (h.2.2 _ (List.mem_map_of_mem _ hr)).1
    have hstale2 : StaleInv t (stageCommit { s with clock := s.clock + 1 }) := by
      refine ⟨?_, ?_, ?_⟩
      · rw [hlsq2]
        exact h.1
      · rw [c1]
        exact h.2.1
      · intro x hx
        obtain ⟨r, hr, hrx⟩ := List.mem_map.mp hx
        have hmem : r ∈ s.rob := c2 r hr
        have hx2 : x ∈ s.rob.map ROBEntry.robTag := by
          rw [← hrx]
          exact List.mem_map_of_mem _ hmem
        rw [c1]
        exact h.2.2 x hx2
    exact issueLoop_StaleInv t _ _ (stageExecute_StaleInv t _ hstale2)

theorem step_TagInv (s : SimState) (h : TagInv s) : TagInv (step s) := by
  unfold step
  split
  · exact h
  · dsimp only
    obtain ⟨c1, c2, c3, _, _, _, _⟩ :=
      stageCommit_master { s with clock := s.clock + 1 }
    have h2 : TagInv (stageCommit { s with clock := s.clock + 1 }) := by
      constructor
      · intro x hx
        obtain ⟨r, hr, hrx⟩ := List.mem_map.mp hx
        have hmem : r ∈ s.rob := c2 r hr
        have hx2 : x ∈ s.rob.map ROBEntry.robTag := by
          rw [← hrx]
          exact List.mem_map_of_mem _ hmem
        rw [c1]
        exact h.1 x hx2
      · intro x hx
        obtain ⟨l, hl, hlx⟩ := List.mem_map.mp hx
        have hmem : l ∈ s.lsq := c3 l hl
        have hx2 : x ∈ s.lsq.map LSQEntry.robTag := by
          rw [← hlx]
          exact List.mem_map_of_mem _ hmem
        rw [c1]
        exact h.2 x hx2
    obtain ⟨_, e2, _, _, e5, e6⟩ :=
      stageExecute_frame (stageCommit { s with clock := s.clock + 1 })
    have h3 : TagInv (stageExecute (stageCommit { s with clock := s.clock + 1 })) := by
      constructor
      · rw [e5, e2]
        exact h2.1
      · rw [e6, e2]
        exact h2.2
    obtain ⟨_, _, _, l4, _, newRob, newLsq, lr, ll, lbr, lbl⟩ :=
      issueLoop_master
        (stageExecute (stageCommit { s with clock := s.clock + 1 })).width
        (stageExecute (stageCommit { s with clock := s.clock + 1 }))
    constructor
    · intro x hx
      rw [lr] at hx
      rcases List.mem_append.mp hx with hx | hx
      · exact lt_of_lt_of_le (h3.1 x hx) l4
      · exact (lbr x hx).2
    · intro x hx
      rw [ll] at hx
      rcases List.mem_append.mp hx with hx | hx
      · exact lt_of_lt_of_le (h3.2 x hx) l4
      · exact (lbl x hx).2

theorem step_establishes_stale (t : Int) (s : SimState) (hTag : TagInv s)
    (hmis : mispredictAt s = true) (hlsq : lsqHeadTag s = some t) :
    StaleInv t (step s) := by
  obtain ⟨head, rest, hrob, hready, hbr, hd⟩ := mispredict_elim s hmis
  unfold step
  split
  · next hc =>
    exfalso
    have h0 := hc.2
    rw [hrob] at h0
    simp at h0
  · dsimp only
    have hrob1 : ({ s with clock := s.clock + 1 } : SimState).rob =
        head :: rest := hrob
    obtain ⟨_, _, _, bmis, _⟩ :=
      stageCommit_branch { s with clock := s.clock + 1 } head rest hrob1
        hready hbr
    have hflush := bmis hd
    obtain ⟨c1, _, _, _, _, _, _⟩ :=
      stageCommit_master { s with clock := s.clock + 1 }
    have hstale2 : StaleInv t (stageCommit { s with clock := s.clock + 1 }) := by
      refine ⟨?_, ?_, ?_⟩
      · rw [hflush.2.2.2.2.2.2.1]
        exact hlsq
      · rw [c1]
        exact hTag.2 t (mem_of_head?_some hlsq)
      · rw [hflush.2.1]
        simp
    exact issueLoop_StaleInv t _ _ (stageExecute_StaleInv t _ hstale2)

theorem step_memFrozen (t : Int) (s : SimState) (hst : StaleInv t s)
    (hmem : robHeadIsMem s = true) :
    (step s).instructionsCommitted = s.instructionsCommitted := by
  have hex : ∃ head rest, s.rob = head :: rest ∧
      (head.op = Op.LW ∨ head.op = Op.SW) := by
    unfold robHeadIsMem at hmem
    cases hrob : s.rob with
    | nil => rw [hrob] at hmem; simp at hmem
    | cons head rest =>
        rw [hrob] at hmem
        simp at hmem
        exact ⟨head, rest, rfl, hmem⟩
  obtain ⟨head, rest, hrob, hop⟩ := hex
  have hheadtag : head.robTag ≠ t := by
    have hmemrob : head ∈ s.rob := by
      rw [hrob]
      exact List.mem_cons_self _ _
    exact (hst.2.2 _ (List.mem_map_of_mem _ hmemrob)).1
  unfold step
  split
  · next hc =>
    exfalso
    have h0 := hc.2
    rw [hrob] at h0
    simp at h0
  · dsimp only
    have hrob1 : ({ s with clock := s.clock + 1 } : SimState).rob =
        head :: rest := hrob
    have hgate : lsqGateOpenB { s with clock := s.clock + 1 } head = false := by
      unfold lsqGateOpenB
      dsimp only
      cases hl : s.lsq with
      | nil => rfl
      | cons lh lt =>
          have hlt : lh.robTag = t := by
            have := hst.1
            rw [hl] at this
            simpa using this
          simp only []
          have : ¬ (lh.robTag = head.robTag) := by
            rw [hlt]
            exact fun he => hheadtag he.symm
          simp [this]
    have hcc : (stageCommit { s with clock := s.clock + 1 }).instructionsCommitted
        = s.instructionsCommitted := by
      by_cases hready : head.isReady = true
      · rw [stageCommit_memStall { s with clock := s.clock + 1 } head rest
          hrob1 hready hop hgate]
      · have hs : stageCommit { s with clock := s.clock + 1 } =
            { s with clock := s.clock + 1 } := by
          simp only [stageCommit]
          rw [show ({ s with clock := s.clock + 1 } : SimState).rob
              = head :: rest from hrob]
          simp [hready]
        rw [hs]
    obtain ⟨e1, _, _, _, _, _⟩ :=
      stageExecute_frame (stageCommit { s with clock := s.clock + 1 })
    obtain ⟨l1, _, _, _, _, _⟩ :=
      issueLoop_master
        (stageExecute (stageCommit { s with clock := s.clock + 1 })).width
        (stageExecute (stageCommit { s with clock := s.clock + 1 }))
    show (issueLoop _ _).instructionsCommitted = _
    rw [l1, e1, hcc]

theorem TagInv_resetSim (prog : List InstrTemplate) (wc : Nat → Int) :
    TagInv (resetSim prog wc) := by
  constructor <;> intro x hx <;>
    simp [resetSim, loadProgram, initSim, SimState.log] at hx

theorem stepN_TagInv (n : Nat) :
    ∀ s : SimState, TagInv s → TagInv (stepN n s) := by
  induction n with
  | zero => exact fun _ h => h
  | succ n ih => exact fun s h => ih (step s) (step_TagInv s h)

theorem stepN_StaleInv (t : Int) (n : Nat) :
    ∀ s : SimState, StaleInv t s → StaleInv t (stepN n s) := by
  induction n with
  | zero => exact fun _ h => h
  | succ n ih => exact fun s h => ih (step s) (step_StaleInv t s h)

theorem stepN_x0 (n : Nat) :
    ∀ s : SimState, s.regFile 0 = 0 → s.rat 0 = -1 →
      (stepN n s).regFile 0 = 0 ∧ (stepN n s).rat 0 = -1 := by
  induction n with
  | zero => exact fun _ h1 h2 => ⟨h1, h2⟩
  | succ n ih =>
      exact fun s h1 h2 => ih (step s) ((step_x0 s).1 h1) ((step_x0 s).2 h2)

theorem stepN_balance (n : Nat) :
    ∀ s : SimState, (∀ k, k < n → mispredictAt (stepN k s) = false) →
      ((stepN n s).instructionsCommitted : Int) +
          ((stepN n s).rob.length : Int) - (stepN n s).nextRobTag =
        (s.instructionsCommitted : Int) + (s.rob.length : Int) -
          s.nextRobTag := by
  induction n with
  | zero => exact fun _ _ => rfl
  | succ n ih =>
      intro s h
      have h0 : mispredictAt s = false := h 0 (Nat.succ_pos n)
      have hrest : ∀ k, k < n → mispredictAt (stepN k (step s)) = false :=
        fun k hk => h (k + 1) (Nat.succ_lt_succ hk)
      exact (ih (step s) hrest).trans (step_balance s h0)

/-- C8: after every cycle of every run from reset, the architectural
register x0 reads 0 and the RAT entry for register 0 is architectural
(-1): commit skips the register-file write when the destination is
register 0, and issue never installs a RAT mapping for register 0. -/
theorem c8_x0_invariant (prog : List InstrTemplate) (wc : Nat → Int)
    (n : Nat) :
    (stepN n (resetSim prog wc)).regFile 0 = 0 ∧
      (stepN n (resetSim prog wc)).rat 0 = -1 :=
  stepN_x0 n (resetSim prog wc) rfl rfl

/-- C7 (corrected): in any run from reset during which no cycle has begun
with a mispredicted ready branch at the ROB head — i.e. no flush has
occurred — the committed-instruction count plus the number of live ROB
entries equals the number of instructions issued since reset.  The
unconditional form of the claim is refuted by
`c7_balance_breaks_after_flush`: `flushPipeline` empties the ROB without
accounting for the discarded tags, so after a flush the sum stays below
the issue count. -/
theorem c7_commit_rob_balance (prog : List InstrTemplate) (wc : Nat → Int)
    (n : Nat)
    (h : ∀ k, k < n → mispredictAt (stepN k (resetSim prog wc)) = false) :
    ((stepN n (resetSim prog wc)).instructionsCommitted : Int) +
        ((stepN n (resetSim prog wc)).rob.length : Int) =
      issuedSinceReset (stepN n (resetSim prog wc)) := by
  have hb := stepN_balance n (resetSim prog wc) h
  have h0 : ((resetSim prog wc).instructionsCommitted : Int) +
      ((resetSim prog wc).rob.length : Int) -
      (resetSim prog wc).nextRobTag = -1 := rfl
  unfold issuedSinceReset
  omega

/-- C7 witness: the no-flush hypothesis holds for the first two cycles of
`progC7`, where the balance equation is concrete: 0 committed + 2 live ROB
entries = 2 issued. -/
theorem c7_commit_rob_balance_witness :
    (∀ k, k < 2 → mispredictAt (stepN k (resetSim progC7 wc0)) = false) ∧
      ((stepN 2 (resetSim progC7 wc0)).instructionsCommitted : Int) +
          ((stepN 2 (resetSim progC7 wc0)).rob.length : Int) =
        issuedSinceReset (stepN 2 (resetSim progC7 wc0)) :=
  ⟨by decide, c7_commit_rob_balance progC7 wc0 2 (by decide)⟩

/-- C7 counterexample to the unconditional claim: one cycle after the
mispredicted `BEQ` of `progC7` commits (cycle 3), the flush has discarded
the speculative `ADDI`, leaving 0 committed + 0 live ROB entries while 2
instructions were issued since reset. -/
theorem c7_balance_breaks_after_flush :
    ¬ (((stepN 3 (resetSim progC7 wc0)).instructionsCommitted : Int) +
          ((stepN 3 (resetSim progC7 wc0)).rob.length : Int) =
        issuedSinceReset (stepN 3 (resetSim progC7 wc0))) := by decide

/-- C9: if in a run from reset some cycle begins with a mispredicted ready
branch at the ROB head (so that cycle flushes) while a load or store is in
flight — its LSQ entry, with ROB tag `t`, at the LSQ head — then forever
after: the stale entry is still at the LSQ head, its tag matches no
in-flight ROB entry (tags are allocated strictly increasing and never
reused, and `flushPipeline` does not clear the LSQ), and on any later
cycle whose ROB head is a load or store the committed-instruction count
does not advance — no memory instruction issued after the flush ever
commits. -/
theorem c9_stale_lsq_blocks_mem_commits (prog : List InstrTemplate)
    (wc : Nat → Int) (k : Nat) (t : Int)
    (hmis : mispredictAt (stepN k (resetSim prog wc)) = true)
    (hlsq : lsqHeadTag (stepN k (resetSim prog wc)) = some t) :
    ∀ n : Nat,
      lsqHeadTag (stepN n (step (stepN k (resetSim prog wc)))) = some t ∧
      (∀ x ∈ (stepN n (step (stepN k (resetSim prog wc)))).rob.map
          ROBEntry.robTag, x ≠ t) ∧
      (robHeadIsMem (stepN n (step (stepN k (resetSim prog wc)))) = true →
        (step (stepN n
            (step (stepN k (resetSim prog wc))))).instructionsCommitted =
          (stepN n
            (step (stepN k (resetSim prog wc)))).instructionsCommitted) := by
  intro n
  have hTag : TagInv (stepN k (resetSim prog wc)) :=
    stepN_TagInv k (resetSim prog wc) (TagInv_resetSim prog wc)
  have hstale0 : StaleInv t (step (stepN k (resetSim prog wc))) :=
    step_establishes_stale t (stepN k (resetSim prog wc)) hTag hmis hlsq
  have hstale : StaleInv t (stepN n (step (stepN k (resetSim prog wc)))) :=
    stepN_StaleInv t n (step (stepN k (resetSim prog wc))) hstale0
  exact ⟨hstale.1, fun x hx => (hstale.2.2 x hx).1,
    fun hmem => step_memFrozen t _ hstale hmem⟩

/-- C9 witness: for `progC9b` the flush fires at cycle 3 (`k = 2`) with
the speculative store's LSQ entry (tag 2) in flight; one cycle later the
post-flush `LW` sits ready at the ROB head, the stale entry still heads
the LSQ, and the commit count indeed does not advance. -/
theorem c9_stale_lsq_blocks_mem_commits_witness :
    mispredictAt (stepN 2 (resetSim progC9b wc0)) = true ∧
    lsqHeadTag (stepN 2 (resetSim progC9b wc0)) = some 2 ∧
    (lsqHeadTag (stepN 1 (step (stepN 2 (resetSim progC9b wc0)))) = some 2 ∧
      (∀ x ∈ (stepN 1 (step (stepN 2 (resetSim progC9b wc0)))).rob.map
          ROBEntry.robTag, x ≠ 2) ∧
      (robHeadIsMem (stepN 1 (step (stepN 2 (resetSim progC9b wc0)))) = true →
        (step (stepN 1
            (step (stepN 2 (resetSim progC9b wc0))))).instructionsCommitted =
          (stepN 1
            (step (stepN 2 (resetSim progC9b wc0)))).instructionsCommitted)) :=
  ⟨by decide, by decide,
    c9_stale_lsq_blocks_mem_commits progC9b wc0 2 2 (by decide) (by decide) 1⟩
